import Mathlib

/-!
# erc-identifier: classification of a contract ABI against ERC-20 / ERC-721 / ERC-1155

A shallow embedding of `main.go` (`getABI`, `parseABI`).  The calls that leave the
program (environment, HTTP, JSON decoding, the file system) are fields of a `World`;
Go's `(value, error)` results are pairs whose second component is `Option Error`;
the lines written by `fmt.Printf` are collected in the `out` field of the result.
-/

set_option autoImplicit false

namespace ErcIdentifier

/-! ## Data model -/

/-- Go `error`, represented by its message. -/
abbrev Error := String

/-- Type `EtherscanResp` of `main.go`. -/
structure EtherscanResp where
  Status : String
  Message : String
  Result : String

/-- Entry of `abi.ABI.Methods`: only the signature text is kept, the key carries the name. -/
structure Method where
  Sig : String

/-- Entry of `abi.ABI.Events`. -/
structure Event where
  Sig : String

/-- Type `abi.ABI` reduced to the two maps the program reads, as association lists. -/
structure ABI where
  Methods : List (String × Method)
  Events : List (String × Event)

/-- Value decoded by `encoding/json` into `interface{}`. -/
inductive JSONValue where
  | null
  | bool (b : Bool)
  | number (text : String)
  | string (s : String)
  | array (xs : List JSONValue)
  | object (fields : List (String × JSONValue))

/-- Go `map[string]interface{}`: one entry of a standard definition file. -/
abbrev Item := List (String × JSONValue)

/-- Response of `http.Get`; `Body` is what `io.ReadAll(resp.Body)` yields. -/
structure Response where
  Body : Except Error String

/-- Everything `main.go` obtains from outside the process. -/
structure World where
  /-- Function `os.Getenv`. -/
  getenv : String → String
  /-- Function `http.Get`. -/
  httpGet : String → Except Error Response
  /-- Call `json.Unmarshal(body, &ethResp)`. -/
  unmarshalResp : String → Except Error EtherscanResp
  /-- Function `abi.JSON` applied to the text of the result field. -/
  abiJSON : String → Except Error ABI
  /-- Function `os.ReadFile`. -/
  readFile : String → Except Error String
  /-- Call `json.Unmarshal(abiBytes, &methodsEvents)`. -/
  unmarshalItems : String → Except Error (List Item)

/-- Result of `parseABI`: the returned pair and the lines printed on the way. -/
structure Run where
  ret : String
  err : Option Error
  out : List String
  deriving DecidableEq, Repr

/-! ## getABI -/

/-- The zero value `abi.ABI{}`. -/
def emptyABI : ABI := ⟨[], []⟩

/-- The request URL built by `fmt.Sprintf` in `getABI`. -/
def requestURL (addr api : String) : String :=
  "https://api.etherscan.io/api?module=contract&action=getabi&address=" ++ addr
    ++ "&apikey=" ++ api

/-- Lines 44-57 of `getABI`: what is done with a decoded envelope. -/
def getABIFromResp (w : World) (ethResp : EtherscanResp) : ABI × Option Error :=
  if ethResp.Status = "0" then
    if ethResp.Result = "Contract source code not verified" then
      (emptyABI, none)
    else
      (emptyABI, some ("not real EVM address: " ++ ethResp.Message))
  else
    match w.abiJSON ethResp.Result with
    | .error e => (emptyABI, some ("failed to parse ABI JSON: " ++ e))
    | .ok pAbi => (pAbi, none)

/-- Function `getABI` of `main.go`. -/
def getABI (w : World) (addr : String) : ABI × Option Error :=
  let api := w.getenv "ETHERSCAN_API_KEY"
  let url := requestURL addr api
  match w.httpGet url with
  | .error e => (emptyABI, some ("failed to make HTTP request: " ++ e))
  | .ok resp =>
    match resp.Body with
    | .error e => (emptyABI, some ("failed to read response body: " ++ e))
    | .ok body =>
      match w.unmarshalResp body with
      | .error e => (emptyABI, some ("failed to unmarshal JSON: " ++ e))
      | .ok ethResp => getABIFromResp w ethResp

/-! ## parseABI -/

/-- Map lookup `_, exists := m[name]` on an association list. -/
def hasKey {β : Type} (m : List (String × β)) (name : String) : Bool :=
  m.any (fun kv => kv.1 == name)

/-- The type assertion `item["name"].(string)`. -/
def itemName (item : Item) : Option String :=
  match item.lookup "name" with
  | some (JSONValue.string s) => some s
  | _ => none

/-- The inner loop of `parseABI` (lines 97-107): the value of `allExists` after it. -/
def allExists (abi : ABI) : List Item → Bool
  | [] => true
  | item :: rest =>
    match itemName item with
    | some name =>
      if hasKey abi.Methods name then allExists abi rest
      else if hasKey abi.Events name then allExists abi rest
      else false
    | none => allExists abi rest

/-- The slice `order` of `parseABI`. -/
def order : List String := ["ERC-20", "ERC-721", "ERC-1155"]

/-- The map `abiFiles` of `parseABI`; a missing key reads as the empty string. -/
def abiFiles (erc : String) : String :=
  match [("ERC-20", "abi/erc20.abi.json"), ("ERC-721", "abi/erc721.abi.json"),
         ("ERC-1155", "abi/erc1155.abi.json")].lookup erc with
  | some path => path
  | none => ""

/-- The line returned when standard `erc` is matched. -/
def compliesLine (erc : String) : String :=
  "Contract ABI complies with the " ++ erc ++ " standard"

/-- The line returned when the loop ends without a match. -/
def noStandardLine : String :=
  "Contract ABI does not comply with any of the ERC-20, ERC-721, ERC-1155 standards"

/-- The line returned for an ABI without methods and events. -/
def walletLine : String :=
  "Address is either a wallet or the contract source code is not verified"

/-- The loop `for _, erc := range order` of `parseABI` (lines 81-116), run over the
remaining standards, `out` being what was printed so far. -/
def checkOrder (w : World) (abi : ABI) (out : List String) : List String → Run
  | [] => ⟨noStandardLine, none, out⟩
  | erc :: rest =>
    let out1 := out ++ ["Checking " ++ erc ++ "...\n"]
    let path := abiFiles erc
    match w.readFile path with
    | .error e => ⟨"", some ("failed to read " ++ path ++ ": " ++ e), out1⟩
    | .ok abiBytes =>
      match w.unmarshalItems abiBytes with
      | .error e => ⟨"", some ("failed to parse " ++ erc ++ " ABI JSON: " ++ e), out1⟩
      | .ok methodsEvents =>
        if allExists abi methodsEvents then ⟨compliesLine erc, none, out1⟩
        else checkOrder w abi out1 rest

/-- Lines 67-117 of `parseABI`: classification of an ABI that was fetched. -/
def classify (w : World) (abi : ABI) : Run :=
  if abi.Methods.length = 0 ∧ abi.Events.length = 0 then
    ⟨walletLine, none, []⟩
  else
    checkOrder w abi [] order

/-- Function `parseABI` of `main.go`. -/
def parseABI (w : World) (addr : String) : Run :=
  match getABI w addr with
  | (_, some err) => ⟨"", some ("failed to get contract ABI: " ++ err), []⟩
  | (abi, none) => classify w abi

/-! ## Vocabulary of the specification -/

/-- The contract surface: the names of the methods and of the events, as one flat list. -/
def surface (abi : ABI) : List String :=
  abi.Methods.map Prod.fst ++ abi.Events.map Prod.fst

/-- The required member names of a definition: the string-valued name fields. -/
def requiredNames (items : List Item) : List String :=
  items.filterMap itemName

/-- Full containment: every required member name is in the surface. -/
def satisfies (abi : ABI) (items : List Item) : Prop :=
  ∀ n ∈ requiredNames items, n ∈ surface abi

/-- Outcome of lines 85-94 for one standard: the decoded definition, or the error
`parseABI` returns. -/
def loadDef (w : World) (erc : String) : Except Error (List Item) :=
  match w.readFile (abiFiles erc) with
  | .error e => .error ("failed to read " ++ abiFiles erc ++ ": " ++ e)
  | .ok abiBytes =>
    match w.unmarshalItems abiBytes with
    | .error e => .error ("failed to parse " ++ erc ++ " ABI JSON: " ++ e)
    | .ok methodsEvents => .ok methodsEvents

/-- The definitions of all three standards load. -/
def allLoad (w : World) : Prop :=
  ∀ erc ∈ order, ∃ items, loadDef w erc = .ok items

/-- Standard `erc` loads and the surface contains all its required member names. -/
def matchedBy (w : World) (abi : ABI) (erc : String) : Prop :=
  ∃ items, loadDef w erc = .ok items ∧ satisfies abi items

/-- Standard `erc` loads and some required member name is missing from the surface. -/
def unmatchedBy (w : World) (abi : ABI) (erc : String) : Prop :=
  ∃ items, loadDef w erc = .ok items ∧ ¬ satisfies abi items

/-- Standard `s` stands at a position of `order`, is matched, and nothing before is. -/
def earliestMatch (w : World) (abi : ABI) (s : String) : Prop :=
  ∃ i, order[i]? = some s ∧ matchedBy w abi s ∧
    ∀ (j : Nat) (t : String), j < i → order[j]? = some t → ¬ matchedBy w abi t

/-- A definition entry that carries a string-valued name. -/
def named (item : Item) : Bool := (itemName item).isSome

/-- Two definitions that differ only by entries without a string-valued name. -/
def sameNamedEntries (a b : List Item) : Prop :=
  a.filter named = b.filter named

/-- The line printed at the start of an iteration. -/
def checkingLine (erc : String) : String := "Checking " ++ erc ++ "...\n"

/-- The two loads agree on standard `erc` up to entries without a string-valued name:
both fail with the same error, or both decode and the named entries coincide. -/
def sameUpToUnnamed (w w2 : World) (erc : String) : Prop :=
  (∃ x, loadDef w erc = .error x ∧ loadDef w2 erc = .error x) ∨
  (∃ a b, loadDef w erc = .ok a ∧ loadDef w2 erc = .ok b ∧ sameNamedEntries a b)

/-! ## Sample data -/

/-- A definition entry of type function. -/
def fnItem (name : String) : Item :=
  [("type", JSONValue.string "function"), ("name", JSONValue.string name),
   ("inputs", JSONValue.array [])]

/-- A definition entry of type event. -/
def evItem (name : String) : Item :=
  [("anonymous", JSONValue.bool false), ("name", JSONValue.string name),
   ("type", JSONValue.string "event")]

/-- A constructor entry: it has no name field. -/
def ctorItem : Item :=
  [("type", JSONValue.string "constructor"), ("inputs", JSONValue.array [])]

/-- An entry whose name field is not a string. -/
def oddItem : Item :=
  [("name", JSONValue.number "7"), ("type", JSONValue.string "function")]

/-- The eight member names of ERC-20. -/
def erc20Names : List String :=
  ["totalSupply", "transfer", "transferFrom", "balanceOf", "approve", "allowance",
   "Transfer", "Approval"]

/-- Sample ERC-20 definition: the eight names. -/
def erc20Def : List Item :=
  (erc20Names.take 6).map fnItem ++ (erc20Names.drop 6).map evItem

/-- Sample ERC-721 definition. -/
def erc721Def : List Item :=
  ["balanceOf", "ownerOf", "safeTransferFrom", "transferFrom", "approve",
   "setApprovalForAll", "getApproved", "isApprovedForAll"].map fnItem ++
  ["Transfer", "Approval", "ApprovalForAll"].map evItem

/-- Sample ERC-1155 definition. -/
def erc1155Def : List Item :=
  ["balanceOf", "balanceOfBatch", "setApprovalForAll", "isApprovedForAll",
   "safeTransferFrom", "safeBatchTransferFrom"].map fnItem ++
  ["TransferSingle", "TransferBatch", "ApprovalForAll", "URI"].map evItem

/-- An ABI with the given method and event names; the signature repeats the name. -/
def abiOf (methods events : List String) : ABI :=
  ⟨methods.map (fun n => (n, ⟨n ++ "()"⟩)), events.map (fun n => (n, ⟨n ++ "()"⟩))⟩

/-- A world given by tables: envelopes by address, ABIs by result text, file contents
by path, decoded definitions by content. -/
def sampleWorld (responses : List (String × EtherscanResp)) (abis : List (String × ABI))
    (files : List (String × String)) (defs : List (String × List Item)) : World where
  getenv := fun _ => "KEY"
  httpGet := fun url =>
    match (responses.map (fun r => (requestURL r.1 "KEY", r.1))).lookup url with
    | some a => .ok ⟨.ok ("body:" ++ a)⟩
    | none => .error "no route to host"
  unmarshalResp := fun body =>
    match (responses.map (fun r => ("body:" ++ r.1, r.2))).lookup body with
    | some e => .ok e
    | none => .error "invalid character"
  abiJSON := fun text =>
    match abis.lookup text with
    | some a => .ok a
    | none => .error "invalid character"
  readFile := fun path =>
    match files.lookup path with
    | some c => .ok c
    | none => .error ("open " ++ path ++ ": no such file or directory")
  unmarshalItems := fun c =>
    match defs.lookup c with
    | some items => .ok items
    | none => .error "unexpected end of JSON input"

/-- Sample envelopes: four verified contracts, an unverified one, a rejected address. -/
def sampleResponses : List (String × EtherscanResp) :=
  [("0xT", ⟨"1", "OK", "abi-token"⟩), ("0xS", ⟨"1", "OK", "abi-token-swapped"⟩),
   ("0xF", ⟨"1", "OK", "abi-foobar"⟩), ("0xB", ⟨"1", "OK", "abi-both"⟩),
   ("0xN", ⟨"1", "OK", "abi-nft"⟩),
   ("0xU", ⟨"0", "NOTOK", "Contract source code not verified"⟩),
   ("0xX", ⟨"0", "NOTOK", "Invalid Address format"⟩)]

/-- An ERC-20 token: six methods, two events. -/
def tokenABI : ABI := abiOf (erc20Names.take 6) (erc20Names.drop 6)

/-- The names of `tokenABI` with methods and events exchanged and other signatures. -/
def swappedABI : ABI :=
  ⟨(erc20Names.drop 6).map (fun n => (n, ⟨n ++ "(uint256)"⟩)),
   (erc20Names.take 6).reverse.map (fun n => (n, ⟨n ++ "(address,bytes)"⟩))⟩

/-- A contract with members foo and bar. -/
def foobarABI : ABI := abiOf ["foo"] ["bar"]

/-- A contract with the ERC-20 and the ERC-721 names. -/
def bothABI : ABI :=
  abiOf ["totalSupply", "transfer", "transferFrom", "balanceOf", "approve", "allowance",
    "ownerOf", "safeTransferFrom", "setApprovalForAll", "getApproved", "isApprovedForAll"]
    ["Transfer", "Approval", "ApprovalForAll"]

/-- A contract with the ERC-721 names. -/
def nftABI : ABI :=
  abiOf ["balanceOf", "ownerOf", "safeTransferFrom", "transferFrom", "approve",
    "setApprovalForAll", "getApproved", "isApprovedForAll"]
    ["Transfer", "Approval", "ApprovalForAll"]

/-- What `abi.JSON` yields for the sample result texts. -/
def sampleABIs : List (String × ABI) :=
  [("abi-token", tokenABI), ("abi-token-swapped", swappedABI), ("abi-foobar", foobarABI),
   ("abi-both", bothABI), ("abi-nft", nftABI)]

/-- The three definition files. -/
def stdFiles : List (String × String) :=
  [("abi/erc20.abi.json", "erc20-text"), ("abi/erc721.abi.json", "erc721-text"),
   ("abi/erc1155.abi.json", "erc1155-text")]

/-- What the three definition files decode to. -/
def stdDefs : List (String × List Item) :=
  [("erc20-text", erc20Def), ("erc721-text", erc721Def), ("erc1155-text", erc1155Def)]

/-- The sample world with the three definitions in place. -/
def stdWorld : World := sampleWorld sampleResponses sampleABIs stdFiles stdDefs

/-- A world in which no definition file exists. -/
def noFilesWorld : World := sampleWorld sampleResponses sampleABIs [] stdDefs

/-- A world in which the ERC-721 definition file is missing. -/
def no721World : World :=
  sampleWorld sampleResponses sampleABIs
    [("abi/erc20.abi.json", "erc20-text"), ("abi/erc1155.abi.json", "erc1155-text")] stdDefs

/-- A world in which the ERC-721 definition file does not decode. -/
def bad721World : World :=
  sampleWorld sampleResponses sampleABIs
    [("abi/erc20.abi.json", "erc20-text"), ("abi/erc721.abi.json", "garbage"),
     ("abi/erc1155.abi.json", "erc1155-text")] stdDefs

/-- A world whose ERC-20 definition file holds the JSON text null, which is not an
array of objects: `json.Unmarshal` into a slice of maps accepts it without error and
leaves the slice empty. -/
def nullDefWorld : World :=
  sampleWorld sampleResponses sampleABIs
    [("abi/erc20.abi.json", "null"), ("abi/erc721.abi.json", "erc721-text"),
     ("abi/erc1155.abi.json", "erc1155-text")]
    (("null", []) :: stdDefs)

/-- A world whose ERC-20 definition file holds the JSON text [null], an array whose one
element is not an object: `json.Unmarshal` accepts it without error and yields one nil
map, which has no name field. -/
def nullEntryWorld : World :=
  sampleWorld sampleResponses sampleABIs
    [("abi/erc20.abi.json", "[null]"), ("abi/erc721.abi.json", "erc721-text"),
     ("abi/erc1155.abi.json", "erc1155-text")]
    (("[null]", [[]]) :: stdDefs)

/-- A world whose ERC-20 definition is the empty array. -/
def emptyDefWorld : World :=
  sampleWorld sampleResponses sampleABIs stdFiles
    [("erc20-text", []), ("erc721-text", erc721Def), ("erc1155-text", erc1155Def)]

/-- A world whose ERC-721 definition holds only entries without a string-valued name. -/
def unnamedDefWorld : World :=
  sampleWorld sampleResponses sampleABIs stdFiles
    [("erc20-text", erc20Def), ("erc721-text", [ctorItem, oddItem]),
     ("erc1155-text", erc1155Def)]

/-- The standard world with nameless entries inserted into two definitions. -/
def paddedWorld : World :=
  sampleWorld sampleResponses sampleABIs stdFiles
    [("erc20-text", ctorItem :: erc20Def ++ [oddItem]), ("erc721-text", oddItem :: erc721Def),
     ("erc1155-text", erc1155Def)]

/-! ## Basic facts -/

theorem hasKey_iff_mem {β : Type} (m : List (String × β)) (name : String) :
    hasKey m name = true ↔ name ∈ m.map Prod.fst := by
  induction m with
  | nil => simp [hasKey]
  | cons kv rest ih =>
    simp only [hasKey, List.any_cons, Bool.or_eq_true, List.map_cons, List.mem_cons] at ih ⊢
    rw [ih]
    constructor
    · rintro (h | h)
      · left; exact (beq_iff_eq.mp h).symm
      · right; exact h
    · rintro (h | h)
      · left; exact beq_iff_eq.mpr h.symm
      · right; exact h

theorem mem_surface_iff (abi : ABI) (n : String) :
    n ∈ surface abi ↔ hasKey abi.Methods n = true ∨ hasKey abi.Events n = true := by
  simp only [surface, List.mem_append, hasKey_iff_mem]

theorem allExists_iff_satisfies (abi : ABI) (items : List Item) :
    allExists abi items = true ↔ satisfies abi items := by
  induction items with
  | nil => simp [allExists, satisfies, requiredNames]
  | cons item rest ih =>
    unfold satisfies requiredNames at ih ⊢
    cases hn : itemName item with
    | none =>
      simp only [allExists, hn, List.filterMap_cons]
      exact ih
    | some name =>
      simp only [allExists, hn, List.filterMap_cons, List.mem_cons, forall_eq_or_imp,
        mem_surface_iff]
      by_cases hm : hasKey abi.Methods name = true
      · simp [hm, ih, mem_surface_iff]
      · by_cases he : hasKey abi.Events name = true
        · simp [hm, he, ih, mem_surface_iff]
        · simp [hm, he]

theorem allExists_false_iff (abi : ABI) (items : List Item) :
    allExists abi items = false ↔ ¬ satisfies abi items := by
  rw [← allExists_iff_satisfies]; simp

theorem surface_eq_nil_iff (abi : ABI) :
    surface abi = [] ↔ (abi.Methods.length = 0 ∧ abi.Events.length = 0) := by
  simp [surface]

theorem compliesLine_injective {s t : String} (h : compliesLine s = compliesLine t) :
    s = t := by
  unfold compliesLine at h
  have h1 := congrArg String.data h
  simp only [String.data_append, List.append_assoc] at h1
  exact String.ext (List.append_cancel_right (List.append_cancel_left h1))

theorem compliesLine_ne_noStandardLine (s : String) : compliesLine s ≠ noStandardLine := by
  intro h
  have h1 := congrArg (fun x => x.data.take 14) h
  simp [compliesLine, noStandardLine, String.data_append] at h1

theorem compliesLine_ne_empty (s : String) : compliesLine s ≠ "" := by
  intro h
  have h1 := congrArg (fun x => x.data.take 1) h
  simp [compliesLine, String.data_append] at h1

/-- One iteration of the loop, in terms of `loadDef`. -/
theorem checkOrder_cons (w : World) (abi : ABI) (out : List String) (erc : String)
    (rest : List String) :
    checkOrder w abi out (erc :: rest) =
      match loadDef w erc with
      | .error e => ⟨"", some e, out ++ [checkingLine erc]⟩
      | .ok items =>
        if allExists abi items then ⟨compliesLine erc, none, out ++ [checkingLine erc]⟩
        else checkOrder w abi (out ++ [checkingLine erc]) rest := by
  simp only [checkOrder, loadDef, checkingLine]
  cases w.readFile (abiFiles erc) with
  | error e => rfl
  | ok bytes =>
    dsimp only
    cases w.unmarshalItems bytes with
    | error e => rfl
    | ok items => rfl

theorem parseABI_of_fetch {w : World} {addr : String} {abi : ABI}
    (hfetch : getABI w addr = (abi, none)) : parseABI w addr = classify w abi := by
  simp [parseABI, hfetch]

theorem classify_of_nonempty {w : World} {abi : ABI} (hne : surface abi ≠ []) :
    classify w abi = checkOrder w abi [] order := by
  have h : ¬ (abi.Methods.length = 0 ∧ abi.Events.length = 0) := by
    rw [← surface_eq_nil_iff]; exact hne
  simp only [classify, if_neg h]

/-! ## The loop over the standards -/

theorem matchedBy_or_unmatchedBy {w : World} (abi : ABI) {erc : String} {items : List Item}
    (h : loadDef w erc = .ok items) : matchedBy w abi erc ∨ unmatchedBy w abi erc := by
  by_cases hs : satisfies abi items
  · exact Or.inl ⟨items, h, hs⟩
  · exact Or.inr ⟨items, h, hs⟩

theorem not_matchedBy_of_unmatchedBy {w : World} {abi : ABI} {erc : String}
    (h : unmatchedBy w abi erc) : ¬ matchedBy w abi erc := by
  rintro ⟨items, hl, hs⟩
  obtain ⟨items2, hl2, hns⟩ := h
  rw [hl] at hl2
  cases hl2
  exact hns hs

/-- A standard that loads and is not matched lets the loop go on. -/
theorem checkOrder_cons_unmatched {w : World} {abi : ABI} (out : List String) {erc : String}
    (rest : List String) (h : unmatchedBy w abi erc) :
    checkOrder w abi out (erc :: rest) = checkOrder w abi (out ++ [checkingLine erc]) rest := by
  obtain ⟨items, hl, hns⟩ := h
  rw [checkOrder_cons, hl]
  have hf : allExists abi items = false := (allExists_false_iff abi items).mpr hns
  simp [hf]

/-- A standard that loads and is matched ends the loop. -/
theorem checkOrder_cons_matched {w : World} {abi : ABI} (out : List String) {erc : String}
    (rest : List String) (h : matchedBy w abi erc) :
    checkOrder w abi out (erc :: rest) = ⟨compliesLine erc, none, out ++ [checkingLine erc]⟩ := by
  obtain ⟨items, hl, hs⟩ := h
  rw [checkOrder_cons, hl]
  have ht : allExists abi items = true := (allExists_iff_satisfies abi items).mpr hs
  simp [ht]

/-- A standard that does not load ends the loop with its error. -/
theorem checkOrder_cons_error {w : World} {abi : ABI} (out : List String) {erc : String}
    (rest : List String) {x : Error} (h : loadDef w erc = .error x) :
    checkOrder w abi out (erc :: rest) = ⟨"", some x, out ++ [checkingLine erc]⟩ := by
  rw [checkOrder_cons, h]

/-- When every standard loads and none is matched the loop runs to its end. -/
theorem checkOrder_none {w : World} {abi : ABI} (ercs : List String) (out : List String)
    (h : ∀ e ∈ ercs, unmatchedBy w abi e) :
    checkOrder w abi out ercs = ⟨noStandardLine, none, out ++ ercs.map checkingLine⟩ := by
  induction ercs generalizing out with
  | nil => simp [checkOrder]
  | cons a rest ih =>
    rw [checkOrder_cons_unmatched out rest (h a (List.mem_cons_self a rest)),
      ih _ (fun e he => h e (List.mem_cons_of_mem a he))]
    simp

/-- The loop reaches position `i` when everything before it loads unmatched. -/
theorem checkOrder_reach {w : World} {abi : ABI} (ercs : List String) (out : List String)
    (i : Nat) (e : String) (hi : ercs[i]? = some e)
    (hpre : ∀ (j : Nat) (t : String), j < i → ercs[j]? = some t → unmatchedBy w abi t) :
    ∃ out2 rest, checkOrder w abi out ercs = checkOrder w abi out2 (e :: rest) := by
  induction ercs generalizing out i with
  | nil => simp at hi
  | cons a rest ih =>
    cases i with
    | zero =>
      simp only [List.getElem?_cons_zero, Option.some.injEq] at hi
      subst hi
      exact ⟨out, rest, rfl⟩
    | succ k =>
      have ha : unmatchedBy w abi a := hpre 0 a (Nat.succ_pos k) (by simp)
      rw [checkOrder_cons_unmatched out rest ha]
      simp only [List.getElem?_cons_succ] at hi
      exact ih _ k hi (fun j t hj ht => hpre (j + 1) t (Nat.succ_lt_succ hj) (by simpa using ht))

theorem checkOrder_matched_at {w : World} {abi : ABI} (ercs : List String) (out : List String)
    (i : Nat) (e : String) (hi : ercs[i]? = some e)
    (hpre : ∀ (j : Nat) (t : String), j < i → ercs[j]? = some t → unmatchedBy w abi t)
    (hm : matchedBy w abi e) :
    (checkOrder w abi out ercs).ret = compliesLine e ∧ (checkOrder w abi out ercs).err = none := by
  obtain ⟨out2, rest, h⟩ := checkOrder_reach ercs out i e hi hpre
  rw [h, checkOrder_cons_matched out2 rest hm]
  exact ⟨rfl, rfl⟩

theorem checkOrder_error_at {w : World} {abi : ABI} (ercs : List String) (out : List String)
    (i : Nat) (e : String) (hi : ercs[i]? = some e)
    (hpre : ∀ (j : Nat) (t : String), j < i → ercs[j]? = some t → unmatchedBy w abi t)
    {x : Error} (hx : loadDef w e = .error x) :
    (checkOrder w abi out ercs).ret = "" ∧ (checkOrder w abi out ercs).err = some x := by
  obtain ⟨out2, rest, h⟩ := checkOrder_reach ercs out i e hi hpre
  rw [h, checkOrder_cons_error out2 rest hx]
  exact ⟨rfl, rfl⟩

/-- Either every standard loads unmatched, or there is a first one that does not. -/
theorem first_decisive (w : World) (abi : ABI) (ercs : List String) :
    (∀ e ∈ ercs, unmatchedBy w abi e) ∨
    ∃ i e, ercs[i]? = some e ∧
      (∀ (j : Nat) (t : String), j < i → ercs[j]? = some t → unmatchedBy w abi t) ∧
        ¬ unmatchedBy w abi e := by
  induction ercs with
  | nil => left; simp
  | cons a rest ih =>
    by_cases ha : unmatchedBy w abi a
    · rcases ih with hall | ⟨i, e, hi, hpre, hne⟩
      · left
        intro e he
        rcases List.mem_cons.mp he with rfl | he
        · exact ha
        · exact hall e he
      · right
        refine ⟨i + 1, e, by simpa using hi, ?_, hne⟩
        intro j t hj ht
        cases j with
        | zero =>
          simp only [List.getElem?_cons_zero, Option.some.injEq] at ht
          subst ht
          exact ha
        | succ k =>
          exact hpre k t (Nat.lt_of_succ_lt_succ hj) (by simpa using ht)
    · right
      exact ⟨0, a, by simp, fun j t hj _ => absurd hj (Nat.not_lt_zero j), ha⟩

/-- A result that is neither the final line nor an error names a matched standard. -/
theorem checkOrder_ret_complies {w : World} {abi : ABI} (ercs : List String)
    (out : List String) (s : String)
    (hret : (checkOrder w abi out ercs).ret = compliesLine s) :
    ∃ i, ercs[i]? = some s ∧ matchedBy w abi s ∧
      ∀ (j : Nat) (t : String), j < i → ercs[j]? = some t → unmatchedBy w abi t := by
  rcases first_decisive w abi ercs with hall | ⟨i, e, hi, hpre, hne⟩
  · rw [checkOrder_none ercs out hall] at hret
    exact absurd hret.symm (compliesLine_ne_noStandardLine s)
  · cases hl : loadDef w e with
    | error x =>
      rw [(checkOrder_error_at ercs out i e hi hpre hl).1] at hret
      exact absurd hret.symm (compliesLine_ne_empty s)
    | ok items =>
      rcases matchedBy_or_unmatchedBy abi hl with hm | hu
      · rw [(checkOrder_matched_at ercs out i e hi hpre hm).1] at hret
        have hes : e = s := compliesLine_injective hret
        subst hes
        exact ⟨i, hi, hm, hpre⟩
      · exact absurd hu hne

/-- Under `allLoad`, standards that are not matched are skipped by the loop. -/
theorem earlier_unmatched_of_allLoad {w : World} {abi : ABI} (hload : allLoad w) {i : Nat}
    (h : ∀ (j : Nat) (t : String), j < i → order[j]? = some t → ¬ matchedBy w abi t) :
    ∀ (j : Nat) (t : String), j < i → order[j]? = some t → unmatchedBy w abi t := by
  intro j t hj ht
  obtain ⟨items, hl⟩ := hload t (List.getElem?_mem ht)
  rcases matchedBy_or_unmatchedBy abi hl with hm | hu
  · exact absurd hm (h j t hj ht)
  · exact hu

theorem parseABI_eq_checkOrder {w : World} {addr : String} {abi : ABI}
    (hfetch : getABI w addr = (abi, none)) (hne : surface abi ≠ []) :
    parseABI w addr = checkOrder w abi [] order := by
  rw [parseABI_of_fetch hfetch, classify_of_nonempty hne]

/-- The order names no standard twice. -/
theorem order_getElem?_ne {k j : Nat} {u : String} (hkj : k < j) (hk : order[k]? = some u)
    (hj : order[j]? = some u) : False := by
  have hj3 : j < 3 := by
    have := (List.getElem?_eq_some_iff.mp hj).1
    simpa [order] using this
  have hk3 : k < 3 := Nat.lt_trans hkj hj3
  interval_cases j <;> interval_cases k <;> simp only [order] at hk hj <;>
    first
    | omega
    | (simp only [List.getElem?_cons_zero, List.getElem?_cons_succ, Option.some.injEq] at hk hj
       subst hk
       revert hj
       decide)

theorem allLoad_stdWorld : allLoad stdWorld := by
  intro erc h
  simp only [order, List.mem_cons, List.mem_singleton, List.not_mem_nil, or_false] at h
  rcases h with rfl | rfl | rfl <;> exact ⟨_, rfl⟩

/-! ## The claims -/

/-- C1: for a non-empty surface and a catalog whose three definitions load, `parseABI`
returns the line "complies with the s standard" (and no error) exactly when `s` is the
earliest standard of the order ERC-20, ERC-721, ERC-1155 whose required member names
are all in the surface.  In particular, when the surface contains the required members
of two standards, at positions `i < j`, and of no other, the result names the one at
position `i`; whenever it contains those of standards at positions `i < j`, the result
names a standard at a position `k ≤ i` and never the one at position `j`; a surface
with the members of ERC-20 and of ERC-721 is reported as ERC-20. -/
theorem C1_earliest_match (w : World) (addr : String) (abi : ABI)
    (hfetch : getABI w addr = (abi, none)) (hne : surface abi ≠ []) (hload : allLoad w) :
    (∀ s : String,
      ((parseABI w addr).ret = compliesLine s ∧ (parseABI w addr).err = none) ↔
        earliestMatch w abi s) ∧
    (∀ (i j : Nat) (s t : String), i < j → order[i]? = some s → order[j]? = some t →
      matchedBy w abi s → matchedBy w abi t →
      (∀ (k : Nat) (u : String), order[k]? = some u → matchedBy w abi u → k = i ∨ k = j) →
      (parseABI w addr).ret = compliesLine s ∧ (parseABI w addr).err = none) ∧
    (∀ (i j : Nat) (s t : String), i < j → order[i]? = some s → order[j]? = some t →
      matchedBy w abi s → matchedBy w abi t →
      (parseABI w addr).ret ≠ compliesLine t ∧
      ∃ (k : Nat) (u : String), k ≤ i ∧ order[k]? = some u ∧
        (parseABI w addr).ret = compliesLine u ∧ (parseABI w addr).err = none) ∧
    (matchedBy w abi "ERC-20" → matchedBy w abi "ERC-721" →
      (parseABI w addr).ret = "Contract ABI complies with the ERC-20 standard" ∧
      (parseABI w addr).err = none) := by
  rw [parseABI_eq_checkOrder hfetch hne]
  refine ⟨fun s => ⟨?_, ?_⟩, ?_, ?_, ?_⟩
  · rintro ⟨hret, _⟩
    obtain ⟨i, hi, hm, hpre⟩ := checkOrder_ret_complies order [] s hret
    exact ⟨i, hi, hm, fun j t hj ht => not_matchedBy_of_unmatchedBy (hpre j t hj ht)⟩
  · rintro ⟨i, hi, hm, hpre⟩
    exact checkOrder_matched_at order [] i s hi (earlier_unmatched_of_allLoad hload hpre) hm
  · intro i j s t hij hi _ hs _ honly
    refine checkOrder_matched_at order [] i s hi (earlier_unmatched_of_allLoad hload ?_) hs
    intro k u hk hu hm
    rcases honly k u hu hm with h | h
    · exact absurd h (Nat.ne_of_lt hk)
    · exact absurd h (Nat.ne_of_lt (Nat.lt_trans hk hij))
  · intro i j s t hij hi hj hs _
    rcases first_decisive w abi order with hall | ⟨k, u, hk, hpre, hnot⟩
    · exact absurd hs (not_matchedBy_of_unmatchedBy (hall s (List.getElem?_mem hi)))
    · have hki : k ≤ i := by
        by_contra hlt
        exact not_matchedBy_of_unmatchedBy (hpre i s (Nat.lt_of_not_le hlt) hi) hs
      obtain ⟨its, hlu⟩ := hload u (List.getElem?_mem hk)
      rcases matchedBy_or_unmatchedBy abi hlu with hm | hu
      · obtain ⟨h1, h2⟩ := checkOrder_matched_at order [] k u hk hpre hm
        refine ⟨?_, k, u, hki, hk, h1, h2⟩
        rw [h1]
        intro hut
        have hkj : k < j := Nat.lt_of_le_of_lt hki hij
        rw [← compliesLine_injective hut] at hj
        exact order_getElem?_ne hkj hk hj
      · exact absurd hu hnot
  · intro h20 _
    exact checkOrder_matched_at order [] 0 "ERC-20" rfl
      (fun j t hj _ => absurd hj (Nat.not_lt_zero j)) h20

/-- C1 at a concrete input: a contract with the ERC-20 and the ERC-721 names, against the
three sample definitions, is reported as ERC-20. -/
theorem C1_earliest_match_witness :
    getABI stdWorld "0xB" = (bothABI, none) ∧ surface bothABI ≠ [] ∧ allLoad stdWorld ∧
    matchedBy stdWorld bothABI "ERC-20" ∧ matchedBy stdWorld bothABI "ERC-721" ∧
    (parseABI stdWorld "0xB").ret = "Contract ABI complies with the ERC-20 standard" ∧
    (parseABI stdWorld "0xB").err = none :=
  have h20 : matchedBy stdWorld bothABI "ERC-20" := ⟨erc20Def, rfl, by unfold satisfies; decide⟩
  have h721 : matchedBy stdWorld bothABI "ERC-721" :=
    ⟨erc721Def, rfl, by unfold satisfies; decide⟩
  ⟨rfl, by decide, allLoad_stdWorld, h20, h721,
    (C1_earliest_match stdWorld "0xB" bothABI rfl (by decide) allLoad_stdWorld).2.2.2 h20 h721⟩

/-- C2: when the fetched ABI has no methods and no events, `parseABI` returns the
wallet-or-unverified line with no error, whatever the catalog holds, and nothing is
printed: no standard is tested. -/
theorem C2_empty_surface (w : World) (addr : String) (abi : ABI)
    (hfetch : getABI w addr = (abi, none))
    (hm : abi.Methods.length = 0) (he : abi.Events.length = 0) :
    parseABI w addr =
      ⟨"Address is either a wallet or the contract source code is not verified", none, []⟩ := by
  rw [parseABI_of_fetch hfetch]
  simp [classify, hm, he, walletLine]

/-- C2 at a concrete input: the unverified address, in a world without any definition
file. -/
theorem C2_empty_surface_witness :
    parseABI noFilesWorld "0xU" =
      ⟨"Address is either a wallet or the contract source code is not verified", none, []⟩ :=
  C2_empty_surface noFilesWorld "0xU" emptyABI rfl rfl rfl

/-- C3: for a non-empty surface and a catalog whose three definitions load, when each
standard has a required member name that the surface lacks, `parseABI` returns the
line "does not comply with any of the ERC-20, ERC-721, ERC-1155 standards" with no
error. -/
theorem C3_no_standard (w : World) (addr : String) (abi : ABI)
    (hfetch : getABI w addr = (abi, none)) (hne : surface abi ≠ []) (hload : allLoad w)
    (hmiss : ∀ erc ∈ order, ∀ items, loadDef w erc = .ok items →
      ∃ n ∈ requiredNames items, n ∉ surface abi) :
    (parseABI w addr).ret =
      "Contract ABI does not comply with any of the ERC-20, ERC-721, ERC-1155 standards" ∧
    (parseABI w addr).err = none := by
  rw [parseABI_eq_checkOrder hfetch hne]
  have hall : ∀ e ∈ order, unmatchedBy w abi e := by
    intro e he
    obtain ⟨items, hl⟩ := hload e he
    obtain ⟨n, hn, hnot⟩ := hmiss e he items hl
    exact ⟨items, hl, fun hs => hnot (hs n hn)⟩
  rw [checkOrder_none order [] hall]
  exact ⟨rfl, rfl⟩

/-- C3 at a concrete input: the surface with members foo and bar against the three
sample definitions. -/
theorem C3_no_standard_witness :
    surface foobarABI = ["foo", "bar"] ∧
    (parseABI stdWorld "0xF").ret =
      "Contract ABI does not comply with any of the ERC-20, ERC-721, ERC-1155 standards" ∧
    (parseABI stdWorld "0xF").err = none := by
  refine ⟨rfl, C3_no_standard stdWorld "0xF" foobarABI rfl (by decide)
    allLoad_stdWorld ?_⟩
  intro erc h items hl
  simp only [order, List.mem_cons, List.mem_singleton, List.not_mem_nil, or_false] at h
  rcases h with rfl | rfl | rfl
  · cases (show erc20Def = items from Except.ok.inj hl)
    exact ⟨"totalSupply", by decide, by decide⟩
  · cases (show erc721Def = items from Except.ok.inj hl)
    exact ⟨"ownerOf", by decide, by decide⟩
  · cases (show erc1155Def = items from Except.ok.inj hl)
    exact ⟨"balanceOfBatch", by decide, by decide⟩

/-! ### Results that depend on the surface only through membership -/

/-- Two runs of the loop agree when, standard by standard, the loads fail alike or the
containment tests give the same answer. -/
theorem checkOrder_congr {w w2 : World} {abi abi2 : ABI} (ercs : List String)
    (out : List String)
    (h : ∀ e ∈ ercs, (∃ x, loadDef w e = .error x ∧ loadDef w2 e = .error x) ∨
      (∃ a b, loadDef w e = .ok a ∧ loadDef w2 e = .ok b ∧
        allExists abi a = allExists abi2 b)) :
    checkOrder w abi out ercs = checkOrder w2 abi2 out ercs := by
  induction ercs generalizing out with
  | nil => rfl
  | cons e rest ih =>
    have hrest := fun o => ih o (fun t ht => h t (List.mem_cons_of_mem e ht))
    rw [checkOrder_cons, checkOrder_cons]
    rcases h e (List.mem_cons_self e rest) with ⟨x, h1, h2⟩ | ⟨a, b, h1, h2, hab⟩
    · rw [h1, h2]
    · rw [h1, h2]
      simp only [hab, hrest]

theorem allExists_mono {abi abi2 : ABI} (hsub : ∀ n ∈ surface abi, n ∈ surface abi2)
    (items : List Item) (h : allExists abi items = true) : allExists abi2 items = true := by
  rw [allExists_iff_satisfies] at h ⊢
  exact fun n hn => hsub n (h n hn)

theorem allExists_congr {abi abi2 : ABI} (hsame : ∀ n, n ∈ surface abi ↔ n ∈ surface abi2)
    (items : List Item) : allExists abi items = allExists abi2 items := by
  rw [Bool.eq_iff_iff]
  exact ⟨allExists_mono (fun n hn => (hsame n).mp hn) items,
    allExists_mono (fun n hn => (hsame n).mpr hn) items⟩

theorem allExists_filter_named (abi : ABI) (items : List Item) :
    allExists abi (items.filter named) = allExists abi items := by
  induction items with
  | nil => rfl
  | cons item rest ih =>
    cases hn : itemName item with
    | none =>
      have hf : named item = false := by simp [named, hn]
      simp only [List.filter_cons, hf, allExists, hn]
      simpa using ih
    | some name =>
      have ht : named item = true := by simp [named, hn]
      simp only [List.filter_cons, ht, allExists, hn, if_true, ih]

theorem requiredNames_eq_nil_of_unnamed {items : List Item}
    (h : ∀ it ∈ items, itemName it = none) : requiredNames items = [] := by
  unfold requiredNames
  rw [List.filterMap_eq_nil_iff]
  exact h

theorem matchedBy_of_requiredNames_nil {w : World} (abi : ABI) {erc : String}
    {items : List Item} (hl : loadDef w erc = .ok items) (h : requiredNames items = []) :
    matchedBy w abi erc :=
  ⟨items, hl, by intro n hn; rw [h] at hn; cases hn⟩

/-- C5: the result depends on the ABI only through the flat set of member names: two
fetched ABIs with the same set of method-or-event names get the same result from
`parseABI`, printed lines included, whichever names are methods or events and
whatever the signatures. -/
theorem C5_names_only (w : World) (addr addr2 : String) (abi abi2 : ABI)
    (hfetch : getABI w addr = (abi, none)) (hfetch2 : getABI w addr2 = (abi2, none))
    (hsame : ∀ n, n ∈ surface abi ↔ n ∈ surface abi2) :
    parseABI w addr = parseABI w addr2 := by
  rw [parseABI_of_fetch hfetch, parseABI_of_fetch hfetch2]
  by_cases hnil : surface abi = []
  · have hnil2 : surface abi2 = [] := by
      rw [List.eq_nil_iff_forall_not_mem]
      intro n hn
      have := (hsame n).mpr hn
      rw [hnil] at this
      cases this
    have h1 := (surface_eq_nil_iff abi).mp hnil
    have h2 := (surface_eq_nil_iff abi2).mp hnil2
    simp only [classify, if_pos h1, if_pos h2]
  · have hne2 : surface abi2 ≠ [] := by
      intro h2
      obtain ⟨n, hn⟩ := List.exists_mem_of_ne_nil _ hnil
      have := (hsame n).mp hn
      rw [h2] at this
      cases this
    rw [classify_of_nonempty hnil, classify_of_nonempty hne2]
    apply checkOrder_congr
    intro e _
    cases hl : loadDef w e with
    | error x => exact Or.inl ⟨x, rfl, rfl⟩
    | ok a => exact Or.inr ⟨a, a, rfl, rfl, allExists_congr hsame a⟩

/-- C5 at a concrete input: the ERC-20 token and the ABI that has the same eight names
with methods and events exchanged and other signatures. -/
theorem C5_names_only_witness :
    getABI stdWorld "0xT" = (tokenABI, none) ∧ getABI stdWorld "0xS" = (swappedABI, none) ∧
    tokenABI.Methods.map Prod.fst ≠ swappedABI.Methods.map Prod.fst ∧
    parseABI stdWorld "0xT" = parseABI stdWorld "0xS" :=
  ⟨rfl, rfl, by decide,
    C5_names_only stdWorld "0xT" "0xS" tokenABI swappedABI rfl rfl (by
      intro n
      simp only [surface, tokenABI, swappedABI, abiOf, erc20Names, List.take, List.drop,
        List.map, List.reverse_cons, List.reverse_nil, List.nil_append, List.cons_append,
        List.mem_cons, List.mem_append, List.not_mem_nil, or_false, List.mem_singleton]
      tauto)⟩

/-- C6: for a decoded envelope with status "0": when its result field is exactly
"Contract source code not verified", `getABI` returns the empty ABI without error and
`parseABI` returns the wallet-or-unverified line without error; for any other result
field `getABI` returns an error and `parseABI` returns the empty string with an error.
In both cases nothing is printed: no standard is tested. -/
theorem C6_status_zero (w : World) (addr : String) (resp : Response) (body : String)
    (ethResp : EtherscanResp)
    (hget : w.httpGet (requestURL addr (w.getenv "ETHERSCAN_API_KEY")) = .ok resp)
    (hbody : resp.Body = .ok body) (hdec : w.unmarshalResp body = .ok ethResp)
    (hstatus : ethResp.Status = "0") :
    (ethResp.Result = "Contract source code not verified" →
      getABI w addr = (⟨[], []⟩, none) ∧
      parseABI w addr =
        ⟨"Address is either a wallet or the contract source code is not verified",
          none, []⟩) ∧
    (ethResp.Result ≠ "Contract source code not verified" →
      (getABI w addr).2 = some ("not real EVM address: " ++ ethResp.Message) ∧
      parseABI w addr =
        ⟨"", some ("failed to get contract ABI: " ++
          ("not real EVM address: " ++ ethResp.Message)), []⟩) := by
  have hg : getABI w addr = getABIFromResp w ethResp := by
    simp only [getABI, hget, hbody, hdec]
  constructor
  · intro hres
    have h : getABI w addr = (emptyABI, none) := by
      rw [hg]; simp [getABIFromResp, hstatus, hres]
    refine ⟨h, ?_⟩
    rw [parseABI_of_fetch h]
    rfl
  · intro hres
    have h : getABI w addr = (emptyABI, some ("not real EVM address: " ++ ethResp.Message)) := by
      rw [hg]; simp [getABIFromResp, hstatus, hres]
    refine ⟨by rw [h], ?_⟩
    simp only [parseABI, h]

/-- C6 at concrete inputs: the address whose envelope has status "0" and the result
"Invalid Address format", and the address of an unverified contract. -/
theorem C6_status_zero_witness :
    ((getABI stdWorld "0xX").2 = some "not real EVM address: NOTOK" ∧
      parseABI stdWorld "0xX" =
        ⟨"", some "failed to get contract ABI: not real EVM address: NOTOK", []⟩) ∧
    (getABI stdWorld "0xU" = (⟨[], []⟩, none) ∧
      parseABI stdWorld "0xU" =
        ⟨"Address is either a wallet or the contract source code is not verified",
          none, []⟩) :=
  ⟨(C6_status_zero stdWorld "0xX" ⟨.ok "body:0xX"⟩ "body:0xX"
      ⟨"0", "NOTOK", "Invalid Address format"⟩ rfl rfl rfl rfl).2 (by decide),
   (C6_status_zero stdWorld "0xU" ⟨.ok "body:0xU"⟩ "body:0xU"
      ⟨"0", "NOTOK", "Contract source code not verified"⟩ rfl rfl rfl rfl).1 rfl⟩

/-- C7: for a surface that consists of the eight ERC-20 names and a catalog whose ERC-20
definition requires exactly those eight names, `parseABI` returns "Contract ABI complies
with the ERC-20 standard" with no error, whatever the other two definitions are (they
are not even read). -/
theorem C7_erc20_scenario (w : World) (addr : String) (abi : ABI) (items : List Item)
    (hfetch : getABI w addr = (abi, none))
    (hsurface : ∀ n, n ∈ surface abi ↔ n ∈ ["totalSupply", "transfer", "transferFrom",
      "balanceOf", "approve", "allowance", "Transfer", "Approval"])
    (hl : loadDef w "ERC-20" = .ok items)
    (hreq : ∀ n, n ∈ requiredNames items ↔ n ∈ ["totalSupply", "transfer", "transferFrom",
      "balanceOf", "approve", "allowance", "Transfer", "Approval"]) :
    parseABI w addr =
      ⟨"Contract ABI complies with the ERC-20 standard", none, ["Checking ERC-20...\n"]⟩ := by
  have hne : surface abi ≠ [] := by
    intro h
    have := (hsurface "totalSupply").mpr (by simp)
    rw [h] at this
    cases this
  have hm : matchedBy w abi "ERC-20" :=
    ⟨items, hl, fun n hn => (hsurface n).mpr ((hreq n).mp hn)⟩
  rw [parseABI_eq_checkOrder hfetch hne]
  exact checkOrder_cons_matched [] _ hm

/-- C7 at a concrete input: the ERC-20 token in a world where only the ERC-20
definition file exists. -/
theorem C7_erc20_scenario_witness :
    parseABI (sampleWorld sampleResponses sampleABIs [("abi/erc20.abi.json", "erc20-text")]
        stdDefs) "0xT" =
      ⟨"Contract ABI complies with the ERC-20 standard", none, ["Checking ERC-20...\n"]⟩ :=
  C7_erc20_scenario _ "0xT" tokenABI erc20Def rfl
    (by
      intro n
      simp only [surface, tokenABI, abiOf, erc20Names, List.take, List.drop, List.map,
        List.cons_append, List.nil_append])
    rfl
    (by
      intro n
      simp [requiredNames, erc20Def, erc20Names, fnItem, evItem, itemName, List.lookup])

/-! ### Definitions that are empty or do not load -/

/-- The final line is returned only when every standard loaded unmatched. -/
theorem checkOrder_ret_noStandard {w : World} {abi : ABI} (ercs : List String)
    (out : List String) (hret : (checkOrder w abi out ercs).ret = noStandardLine) :
    ∀ e ∈ ercs, unmatchedBy w abi e := by
  rcases first_decisive w abi ercs with hall | ⟨i, e, hi, hpre, hne⟩
  · exact hall
  · cases hl : loadDef w e with
    | error x =>
      rw [(checkOrder_error_at ercs out i e hi hpre hl).1] at hret
      exact absurd hret (by decide)
    | ok items =>
      rcases matchedBy_or_unmatchedBy abi hl with hm | hu
      · rw [(checkOrder_matched_at ercs out i e hi hpre hm).1] at hret
        exact absurd hret (compliesLine_ne_noStandardLine e)
      · exact absurd hu hne

/-- C4, as the code has it: a standard whose definition has no required member name
raises no configuration error.  For a non-empty surface, when every earlier standard
loads and is not matched, `parseABI` returns "complies with" that standard and no
error; and in no case does it return the "does not comply with any" line. -/
theorem C4_empty_definition_complies (w : World) (addr : String) (abi : ABI)
    (hfetch : getABI w addr = (abi, none)) (hne : surface abi ≠ [])
    (i : Nat) (e : String) (items : List Item) (hi : order[i]? = some e)
    (hl : loadDef w e = .ok items) (hempty : requiredNames items = []) :
    ((∀ (j : Nat) (t : String), j < i → order[j]? = some t → unmatchedBy w abi t) →
      (parseABI w addr).ret = compliesLine e ∧ (parseABI w addr).err = none) ∧
    (parseABI w addr).ret ≠ noStandardLine := by
  have hm : matchedBy w abi e := matchedBy_of_requiredNames_nil abi hl hempty
  rw [parseABI_eq_checkOrder hfetch hne]
  refine ⟨fun hpre => checkOrder_matched_at order [] i e hi hpre hm, ?_⟩
  intro hret
  exact not_matchedBy_of_unmatchedBy
    (checkOrder_ret_noStandard order [] hret e (List.getElem?_mem hi)) hm

/-- C4 at a concrete input: the surface with members foo and bar, in the world whose
ERC-20 definition is the empty array. -/
theorem C4_empty_definition_complies_witness :
    (parseABI emptyDefWorld "0xF").ret = compliesLine "ERC-20" ∧
    (parseABI emptyDefWorld "0xF").err = none :=
  (C4_empty_definition_complies emptyDefWorld "0xF" foobarABI rfl (by decide) 0 "ERC-20" []
    rfl rfl rfl).1 (fun j _ hj _ => absurd hj (Nat.not_lt_zero j))

/-- C4 refuted as stated: the ERC-20 definition decodes to the empty array, so its
required-member set is empty; the surface with members foo and bar is non-empty; and
`parseABI` returns "complies with the ERC-20 standard" without any error. -/
theorem C4_counterexample :
    loadDef emptyDefWorld "ERC-20" = .ok [] ∧
    requiredNames ([] : List Item) = [] ∧
    getABI emptyDefWorld "0xF" = (foobarABI, none) ∧
    surface foobarABI = ["foo", "bar"] ∧
    parseABI emptyDefWorld "0xF" =
      ⟨"Contract ABI complies with the ERC-20 standard", none, ["Checking ERC-20...\n"]⟩ :=
  ⟨rfl, rfl, rfl, rfl, by decide⟩

/-- C8, as the code has it: for a non-empty surface, when the definition of a standard
cannot be read (`os.ReadFile` returns an error) or does not decode (`json.Unmarshal`
returns an error) and every earlier standard of the order loads and is not matched,
`parseABI` returns the empty string together with that loading error, which is none of
the classification lines. -/
theorem C8_load_failure_reached (w : World) (addr : String) (abi : ABI)
    (hfetch : getABI w addr = (abi, none)) (hne : surface abi ≠ [])
    (i : Nat) (e : String) (x : Error) (hi : order[i]? = some e)
    (hx : loadDef w e = .error x)
    (hpre : ∀ (j : Nat) (t : String), j < i → order[j]? = some t → unmatchedBy w abi t) :
    (parseABI w addr).ret = "" ∧ (parseABI w addr).err = some x ∧
    (parseABI w addr).ret ≠ walletLine ∧ (parseABI w addr).ret ≠ noStandardLine ∧
    ∀ s, (parseABI w addr).ret ≠ compliesLine s := by
  rw [parseABI_eq_checkOrder hfetch hne]
  obtain ⟨h1, h2⟩ := checkOrder_error_at order [] i e hi hpre hx
  rw [h1]
  exact ⟨rfl, h2, by decide, by decide, fun s h => compliesLine_ne_empty s h.symm⟩

/-- C8 at a concrete input: the ERC-721 contract in the world without the ERC-721
definition file; ERC-20 loads and is not matched. -/
theorem C8_load_failure_reached_witness :
    (parseABI no721World "0xN").ret = "" ∧
    (parseABI no721World "0xN").err =
      some "failed to read abi/erc721.abi.json: open abi/erc721.abi.json: no such file or directory" :=
  have h := C8_load_failure_reached no721World "0xN" nftABI rfl (by decide) 1 "ERC-721"
    "failed to read abi/erc721.abi.json: open abi/erc721.abi.json: no such file or directory"
    rfl rfl (by
      intro j t hj ht
      have hj0 : j = 0 := by omega
      subst hj0
      cases (show "ERC-20" = t from Option.some.inj ht)
      exact ⟨erc20Def, rfl, by unfold satisfies; decide⟩)
  ⟨h.1, h.2.1⟩

/-- C8 refuted as stated: with no definition file at all, the empty surface still gets
the wallet-or-unverified line and no error; with the ERC-721 file missing or not
decodable, the ERC-20 token still gets "complies with the ERC-20 standard" and no
error; and with an ERC-20 file that holds null or [null], neither one a JSON array of
objects, the decoding succeeds and the non-empty surface foo/bar gets "complies with
the ERC-20 standard" and no error. -/
theorem C8_counterexample :
    (loadDef noFilesWorld "ERC-20" =
        .error "failed to read abi/erc20.abi.json: open abi/erc20.abi.json: no such file or directory" ∧
      getABI noFilesWorld "0xU" = (emptyABI, none) ∧
      parseABI noFilesWorld "0xU" =
        ⟨"Address is either a wallet or the contract source code is not verified",
          none, []⟩) ∧
    (loadDef no721World "ERC-721" =
        .error "failed to read abi/erc721.abi.json: open abi/erc721.abi.json: no such file or directory" ∧
      parseABI no721World "0xT" =
        ⟨"Contract ABI complies with the ERC-20 standard", none, ["Checking ERC-20...\n"]⟩) ∧
    (loadDef bad721World "ERC-721" =
        .error "failed to parse ERC-721 ABI JSON: unexpected end of JSON input" ∧
      parseABI bad721World "0xT" =
        ⟨"Contract ABI complies with the ERC-20 standard", none, ["Checking ERC-20...\n"]⟩) ∧
    (nullDefWorld.readFile "abi/erc20.abi.json" = .ok "null" ∧
      loadDef nullDefWorld "ERC-20" = .ok [] ∧
      getABI nullDefWorld "0xF" = (foobarABI, none) ∧
      surface foobarABI = ["foo", "bar"] ∧
      parseABI nullDefWorld "0xF" =
        ⟨"Contract ABI complies with the ERC-20 standard", none, ["Checking ERC-20...\n"]⟩) ∧
    (nullEntryWorld.readFile "abi/erc20.abi.json" = .ok "[null]" ∧
      loadDef nullEntryWorld "ERC-20" = .ok [[]] ∧
      parseABI nullEntryWorld "0xF" =
        ⟨"Contract ABI complies with the ERC-20 standard", none, ["Checking ERC-20...\n"]⟩) :=
  ⟨⟨rfl, rfl, by decide⟩, ⟨rfl, by decide⟩, ⟨rfl, by decide⟩,
    ⟨rfl, rfl, rfl, rfl, by decide⟩, ⟨rfl, rfl, by decide⟩⟩

/-! ### Growing the surface, padding the definitions -/

/-- C9: classification is monotone in the surface.  With the three definitions loading,
if a non-empty surface is reported as complying with the standard at position `i` of
the order, every surface that contains it is reported as complying with a standard at
some position `k ≤ i` (so neither with a later standard nor with none). -/
theorem C9_monotone (w : World) (addr addr2 : String) (abi abi2 : ABI)
    (hfetch : getABI w addr = (abi, none)) (hfetch2 : getABI w addr2 = (abi2, none))
    (hne : surface abi ≠ []) (hne2 : surface abi2 ≠ [])
    (hsub : ∀ n ∈ surface abi, n ∈ surface abi2) (hload : allLoad w)
    (i : Nat) (s : String) (hi : order[i]? = some s)
    (hret : (parseABI w addr).ret = compliesLine s) :
    ∃ (k : Nat) (t : String), k ≤ i ∧ order[k]? = some t ∧
      (parseABI w addr2).ret = compliesLine t ∧ (parseABI w addr2).err = none ∧
      (parseABI w addr2).ret ≠ noStandardLine := by
  rw [parseABI_eq_checkOrder hfetch hne] at hret
  rw [parseABI_eq_checkOrder hfetch2 hne2]
  obtain ⟨_, _, ⟨items, hl, hs⟩, _⟩ := checkOrder_ret_complies order [] s hret
  have hm2 : matchedBy w abi2 s := ⟨items, hl, fun n hn => hsub n (hs n hn)⟩
  rcases first_decisive w abi2 order with hall | ⟨k, t, hk, hpre, hnot⟩
  · exact absurd hm2 (not_matchedBy_of_unmatchedBy (hall s (List.getElem?_mem hi)))
  · have hki : k ≤ i := by
      by_contra hlt
      exact not_matchedBy_of_unmatchedBy (hpre i s (Nat.lt_of_not_le hlt) hi) hm2
    obtain ⟨its, hlt⟩ := hload t (List.getElem?_mem hk)
    rcases matchedBy_or_unmatchedBy abi2 hlt with hm | hu
    · obtain ⟨h1, h2⟩ := checkOrder_matched_at order [] k t hk hpre hm
      exact ⟨k, t, hki, hk, h1, h2, by rw [h1]; exact compliesLine_ne_noStandardLine t⟩
    · exact absurd hu hnot

/-- C9 at a concrete input: the ERC-721 contract (position 1) and the contract that has
the ERC-20 names as well (position 0). -/
theorem C9_monotone_witness :
    (parseABI stdWorld "0xN").ret = compliesLine "ERC-721" ∧
    (∀ n ∈ surface nftABI, n ∈ surface bothABI) ∧
    ∃ (k : Nat) (t : String), k ≤ 1 ∧ order[k]? = some t ∧
      (parseABI stdWorld "0xB").ret = compliesLine t ∧ (parseABI stdWorld "0xB").err = none ∧
      (parseABI stdWorld "0xB").ret ≠ noStandardLine :=
  ⟨by decide, by decide,
    C9_monotone stdWorld "0xN" "0xB" nftABI bothABI rfl rfl (by decide) (by decide)
      (by decide) allLoad_stdWorld 1 "ERC-721" rfl (by decide)⟩

/-- C10: entries without a string-valued name field are ignored.  For a non-empty
surface, a catalog that differs from the given one only by such entries (standard by
standard, the same loading error or the same named entries) gives the same result of
`parseABI`; and a definition made only of such entries is reported as complied with
whenever every earlier standard loads and is not matched. -/
theorem C10_unnamed_entries_ignored (w : World) (addr : String) (abi : ABI)
    (hfetch : getABI w addr = (abi, none)) (hne : surface abi ≠ []) :
    (∀ w2 : World, getABI w2 addr = (abi, none) →
      (∀ erc ∈ order, sameUpToUnnamed w w2 erc) → parseABI w2 addr = parseABI w addr) ∧
    (∀ (i : Nat) (e : String) (items : List Item), order[i]? = some e →
      loadDef w e = .ok items → (∀ it ∈ items, itemName it = none) →
      (∀ (j : Nat) (t : String), j < i → order[j]? = some t → unmatchedBy w abi t) →
      (parseABI w addr).ret = compliesLine e ∧ (parseABI w addr).err = none) := by
  constructor
  · intro w2 hfetch2 hedit
    rw [parseABI_eq_checkOrder hfetch hne, parseABI_eq_checkOrder hfetch2 hne]
    symm
    apply checkOrder_congr
    intro e he
    rcases hedit e he with ⟨x, h1, h2⟩ | ⟨a, b, h1, h2, hab⟩
    · exact Or.inl ⟨x, h1, h2⟩
    · refine Or.inr ⟨a, b, h1, h2, ?_⟩
      rw [← allExists_filter_named abi a, ← allExists_filter_named abi b]
      exact congrArg (allExists abi) hab
  · intro i e items hi hl hun hpre
    rw [parseABI_eq_checkOrder hfetch hne]
    exact checkOrder_matched_at order [] i e hi hpre
      (matchedBy_of_requiredNames_nil abi hl (requiredNames_eq_nil_of_unnamed hun))

/-- C10 at concrete inputs: the sample catalog against the one with a constructor entry
and an entry with a numeric name inserted; and the catalog whose ERC-721 definition
holds only such entries, for the surface with members foo and bar. -/
theorem C10_unnamed_entries_ignored_witness :
    parseABI paddedWorld "0xN" = parseABI stdWorld "0xN" ∧
    (parseABI unnamedDefWorld "0xF").ret = compliesLine "ERC-721" ∧
    (parseABI unnamedDefWorld "0xF").err = none :=
  ⟨(C10_unnamed_entries_ignored stdWorld "0xN" nftABI rfl (by decide)).1 paddedWorld rfl (by
      intro erc h
      simp only [order, List.mem_cons, List.mem_singleton, List.not_mem_nil, or_false] at h
      rcases h with rfl | rfl | rfl
      · exact Or.inr ⟨erc20Def, ctorItem :: erc20Def ++ [oddItem], rfl, rfl, rfl⟩
      · exact Or.inr ⟨erc721Def, oddItem :: erc721Def, rfl, rfl, rfl⟩
      · exact Or.inr ⟨erc1155Def, erc1155Def, rfl, rfl, rfl⟩),
   (C10_unnamed_entries_ignored unnamedDefWorld "0xF" foobarABI rfl (by decide)).2 1 "ERC-721"
      [ctorItem, oddItem] rfl rfl (by
        intro it hit
        simp only [List.mem_cons, List.mem_singleton, List.not_mem_nil, or_false] at hit
        rcases hit with rfl | rfl <;> rfl)
      (by
        intro j t hj ht
        have hj0 : j = 0 := by omega
        subst hj0
        cases (show "ERC-20" = t from Option.some.inj ht)
        exact ⟨erc20Def, rfl, by unfold satisfies; decide⟩)⟩

end ErcIdentifier
